import Mathlib

/-!
# Verification of the fastify-starter item-management core

Shallow embedding of the item CRUD service (`src/routes/itemsServices.js`),
its controllers (`src/routes/itemsController.js`), the declarative route
schemas (`src/routes/itemsSchema.js`) and the route table
(`src/routes/itemsHandler.js`).

The Store is the mutable array `items`; every Service operation is embedded
as a pure function from the Store state (a `List Item`) to its result plus
the new Store state.  `uuidv4()` is an external random generator, so the id
it produces is hoisted as an explicit argument of `add`; the spec's
non-collision assumption becomes an explicit freshness hypothesis.  A JS
`undefined` field value is embedded as `Option.none` (the `name` read from a
request body that lacks the field is `undefined`).
-/

namespace FastifyStarter

/-- An item record `{id, name}`.  `name : Option String` because JS allows
`name` to be `undefined` (e.g. `update(id, undefined)` after destructuring a
body without a `name` field); `none` embeds `undefined`. -/
structure Item where
  id : String
  name : Option String
deriving Repr, DecidableEq

/-- JS `items.find(item => item.id === id)`, i.e. `findId` of
`itemsServices.js`: first item whose id matches, `undefined` (`none`) if no
match.  Total: it never throws. -/
def findId (id : String) (items : List Item) : Option Item :=
  items.find? (fun item => item.id == id)

/-- JS `Array.prototype.findIndex` specialised to the predicate shape the
Service uses: index of the first element satisfying `p`, embedded as
`Option Nat` (`none` embeds the JS result `-1`). -/
def findIndexOpt {α : Type} (p : α → Bool) : List α → Option Nat
  | [] => none
  | a :: rest => if p a then some 0 else (findIndexOpt p rest).map (· + 1)

/-- `add` of `itemsServices.js`: build `{id: uuidv4(), name}`, push it onto
the Store, return it.  The freshly generated uuid is the `uuid` argument.
Total (returns `Item`, not `Option Item`): `add` always succeeds. -/
def add (uuid : String) (name : Option String) (items : List Item) :
    Item × List Item :=
  let item : Item := { id := uuid, name := name }
  (item, items ++ [item])

/-- `remove` of `itemsServices.js`: `findIndex`; on `-1` return `null` and
leave the Store alone; else `splice(index, 1)[0]` — delete the element at
that index and return it. -/
def remove (id : String) (items : List Item) : Option Item × List Item :=
  match findIndexOpt (fun item => item.id == id) items with
  | none => (none, items)
  | some i => (items[i]?, items.eraseIdx i)

/-- `update` of `itemsServices.js`: `findIndex`; on `-1` return `null` and
leave the Store alone; else `items[index].name = name` (in-place overwrite,
id untouched) and return `items[index]`.  The inner `none` branch is dead
code forced by totality: `findIndex` only returns indices in range. -/
def update (id : String) (name : Option String) (items : List Item) :
    Option Item × List Item :=
  match findIndexOpt (fun item => item.id == id) items with
  | none => (none, items)
  | some i =>
    match items[i]? with
    | none => (none, items)
    | some found =>
      let updated : Item := { found with name := name }
      (some updated, items.set i updated)

/-- `getAll` of `itemsServices.js`: return the Store. -/
def getAll (items : List Item) : List Item :=
  items

/-! ## Route schemas (`src/routes/itemsSchema.js`) -/

/-- A JSON-schema primitive type as used by the schemas file. -/
inductive FieldType where
  | string
deriving Repr, DecidableEq

/-- A JSON object schema: the `required` field list and the typed
`properties`, exactly the shape declared in `itemsSchema.js`. -/
structure ObjectSchema where
  required : List String := []
  properties : List (String × FieldType) := []
deriving Repr, DecidableEq

/-- The response shapes declared in `itemsSchema.js` (they only drive
serialization, never validation of the request). -/
inductive RespShape where
  | itemObj
  | arrayOfItem
  | messageObj
deriving Repr, DecidableEq

/-- A Fastify route schema: an optional request-body schema (validation
gate) and the declared per-status response shapes. -/
structure RouteSchema where
  body : Option ObjectSchema := none
  response : List (Nat × RespShape) := []
deriving Repr, DecidableEq

/-- The `Item` object schema constant of `itemsSchema.js`: properties
`id : string`, `name : string`, nothing required. -/
def ItemSchema : ObjectSchema :=
  { required := [], properties := [("id", .string), ("name", .string)] }

/-- `getItemsSchema`: response only. -/
def getItemsSchema : RouteSchema :=
  { response := [(200, .arrayOfItem)] }

/-- `getItemSchema`: response only. -/
def getItemSchema : RouteSchema :=
  { response := [(200, .itemObj)] }

/-- `addItemSchema`: body requires `name : string`; `201` response. -/
def addItemSchema : RouteSchema :=
  { body := some { required := ["name"], properties := [("name", .string)] },
    response := [(201, .itemObj)] }

/-- `deleteItemSchema`: response only. -/
def deleteItemSchema : RouteSchema :=
  { response := [(200, .messageObj)] }

/-- `updateItemSchema` of `itemsSchema.js`: it declares ONLY a `200`
response shape — no `body` schema, hence no validation gate on PUT. -/
def updateItemSchema : RouteSchema :=
  { response := [(200, .itemObj)] }

/-! ## Controllers (`src/routes/itemsController.js`) and dispatch -/

/-- A request body: a JSON object, embedded as its list of string-valued
fields (the only property any schema declares is `name : string`). -/
def ReqBody : Type :=
  List (String × String)

/-- Whether the body object has a field of that name. -/
def hasField (body : ReqBody) (f : String) : Bool :=
  body.any (fun kv => kv.1 == f)

/-- JS destructuring `const { name } = req.body`: the field's value, or
`undefined` (`none`) when the field is missing. -/
def lookupField (body : ReqBody) (f : String) : Option String :=
  (body.find? (fun kv => kv.1 == f)).map (fun kv => kv.2)

/-- A schema violation, per the spec's Validator contract: it names the
offending field and the expectation violated. -/
inductive Violation where
  | missingRequired (field : String)
deriving Repr, DecidableEq

/-- A response body: an item, a list of items, a `{message}` object, or the
400 payload carrying the violations. -/
inductive RespBody where
  | itemBody (item : Item)
  | listBody (items : List Item)
  | msg (text : String)
  | invalid (violations : List Violation)
deriving Repr, DecidableEq

/-- A response: status code plus body. -/
structure Response where
  status : Nat
  body : RespBody
deriving Repr, DecidableEq

/-- Modelled from the spec: the Schema Validator's single operation
`validate(payload, schema) -> ok | list<violation>` (the concrete validator
is the hosting framework's, not in `src/`).  Per the spec a violation names
the missing required field; `[]` is `ok`. -/
def validate (body : ReqBody) (schema : ObjectSchema) : List Violation :=
  (schema.required.filter (fun f => !(hasField body f))).map Violation.missingRequired

/-- `getItems` of `itemsController.js`: `reply.send(services.getAll())` —
status 200 with the whole Store. -/
def getItems (items : List Item) : Response × List Item :=
  ({ status := 200, body := RespBody.listBody (getAll items) }, items)

/-- `getItem` of `itemsController.js`: `findId`; absent ⇒
`404 {message: "Item {id} not found"}`; else `200` with the item. -/
def getItem (id : String) (items : List Item) : Response × List Item :=
  match findId id items with
  | none =>
    ({ status := 404, body := RespBody.msg ("Item " ++ id ++ " not found") }, items)
  | some item => ({ status := 200, body := RespBody.itemBody item }, items)

/-- `addItem` of `itemsController.js`: destructured `name` is passed to
`services.add`; reply `201` with the created item. -/
def addItem (uuid : String) (name : Option String) (items : List Item) :
    Response × List Item :=
  let r := add uuid name items
  ({ status := 201, body := RespBody.itemBody r.1 }, r.2)

/-- `deleteItem` of `itemsController.js`: `services.remove`; absent ⇒
`404 {message: "Item {id} not found"}`; else
`200 {message: "Item {id} has been removed"}`. -/
def deleteItem (id : String) (items : List Item) : Response × List Item :=
  match remove id items with
  | (none, rest) =>
    ({ status := 404, body := RespBody.msg ("Item " ++ id ++ " not found") }, rest)
  | (some _, rest) =>
    ({ status := 200, body := RespBody.msg ("Item " ++ id ++ " has been removed") }, rest)

/-- `updateItem` of `itemsController.js`: `services.update(id, name)` with
the destructured `name`; absent ⇒ `404 {message: "Item {id} not found"}`;
else `200` with the updated record. -/
def updateItem (id : String) (name : Option String) (items : List Item) :
    Response × List Item :=
  match update id name items with
  | (none, rest) =>
    ({ status := 404, body := RespBody.msg ("Item " ++ id ++ " not found") }, rest)
  | (some u, rest) => ({ status := 200, body := RespBody.itemBody u }, rest)

/-- Modelled from the spec: the hosting framework's dispatch step (the
Dispatcher of §4.4, which lives in Fastify, not in `src/`): validate the
body against the route's declared body schema — skipped when the route
declares none — and on any violation reply `400` with the violations,
bypassing the controller/Service entirely; otherwise run the handler.  The
`Bool` in the result records whether the handler (and hence the Service)
was invoked. -/
def dispatch (bodySchema : Option ObjectSchema) (body : ReqBody)
    (handler : List Item → Response × List Item) (items : List Item) :
    Response × List Item × Bool :=
  match bodySchema with
  | none =>
    let r := handler items
    (r.1, r.2, true)
  | some schema =>
    let vs := validate body schema
    if vs.isEmpty then
      let r := handler items
      (r.1, r.2, true)
    else
      ({ status := 400, body := RespBody.invalid vs }, items, false)

/-- Route `GET /items` (`itemsHandler.js`): `getItemsSchema` + `getItems`. -/
def handleGETitems (items : List Item) : Response × List Item × Bool :=
  dispatch getItemsSchema.body [] getItems items

/-- Route `GET /items/:id` (`itemsHandler.js`): `getItemSchema` + `getItem`. -/
def handleGETitem (id : String) (items : List Item) :
    Response × List Item × Bool :=
  dispatch getItemSchema.body [] (getItem id) items

/-- Route `POST /items` (`itemsHandler.js`): `addItemSchema` + `addItem`. -/
def handlePOSTitems (uuid : String) (body : ReqBody) (items : List Item) :
    Response × List Item × Bool :=
  dispatch addItemSchema.body body (addItem uuid (lookupField body "name")) items

/-- Route `PUT /items/:id` (`itemsHandler.js`): `updateItemSchema` +
`updateItem`. -/
def handlePUTitem (id : String) (body : ReqBody) (items : List Item) :
    Response × List Item × Bool :=
  dispatch updateItemSchema.body body (updateItem id (lookupField body "name")) items

/-- Route `DELETE /items/:id` (`itemsHandler.js`): `deleteItemSchema` +
`deleteItem`. -/
def handleDELETEitem (id : String) (items : List Item) :
    Response × List Item × Bool :=
  dispatch deleteItemSchema.body [] (deleteItem id) items

/-! ## Helper lemmas about the embedded operations -/

theorem findIndexOpt_eq_none {α : Type} (p : α → Bool) (l : List α)
    (h : ∀ a ∈ l, ¬ p a) : findIndexOpt p l = none := by
  induction l with
  | nil => rfl
  | cons a rest ih =>
    have ha : ¬ p a := h a (by simp)
    simp [findIndexOpt, ha, ih (fun b hb => h b (by simp [hb]))]

theorem findIndexOpt_getElem {α : Type} (p : α → Bool) (l : List α) (i : Nat)
    (h : findIndexOpt p l = some i) :
    ∃ a, l[i]? = some a ∧ p a = true := by
  induction l generalizing i with
  | nil => simp [findIndexOpt] at h
  | cons a rest ih =>
    by_cases ha : p a
    · simp only [findIndexOpt, if_pos ha, Option.some.injEq] at h
      exact ⟨a, by simp [← h], ha⟩
    · simp only [findIndexOpt, if_neg ha] at h
      rcases Option.map_eq_some.mp h with ⟨j, hj, hij⟩
      rcases ih j hj with ⟨b, hb, hpb⟩
      exact ⟨b, by simpa [← hij] using hb, hpb⟩

theorem remove_cons (id : String) (a : Item) (l : List Item) :
    remove id (a :: l) =
      if a.id == id then (some a, l)
      else ((remove id l).1, a :: (remove id l).2) := by
  by_cases ha : a.id == id
  · simp [remove, findIndexOpt, ha]
  · cases hfi : findIndexOpt (fun item => item.id == id) l with
    | none => simp [remove, findIndexOpt, ha, hfi]
    | some i => simp [remove, findIndexOpt, ha, hfi]

theorem update_cons (id : String) (nm : Option String) (a : Item) (l : List Item) :
    update id nm (a :: l) =
      if a.id == id then
        (some { a with name := nm }, { a with name := nm } :: l)
      else ((update id nm l).1, a :: (update id nm l).2) := by
  by_cases ha : a.id == id
  · simp [update, findIndexOpt, ha]
  · cases hfi : findIndexOpt (fun item => item.id == id) l with
    | none => simp [update, findIndexOpt, ha, hfi]
    | some i =>
      cases hg : l[i]? with
      | none => simp [update, findIndexOpt, ha, hfi, hg]
      | some found => simp [update, findIndexOpt, ha, hfi, hg]

theorem remove_not_found (id : String) (items : List Item)
    (h : ∀ it ∈ items, it.id ≠ id) : remove id items = (none, items) := by
  have hn : findIndexOpt (fun item => item.id == id) items = none :=
    findIndexOpt_eq_none _ _ (fun a ha => by simpa using h a ha)
  simp [remove, hn]

theorem update_not_found (id : String) (nm : Option String) (items : List Item)
    (h : ∀ it ∈ items, it.id ≠ id) : update id nm items = (none, items) := by
  have hn : findIndexOpt (fun item => item.id == id) items = none :=
    findIndexOpt_eq_none _ _ (fun a ha => by simpa using h a ha)
  simp [update, hn]

theorem update_found (id : String) (nm : Option String) (items : List Item)
    (i : Nat) (h : findIndexOpt (fun it => it.id == id) items = some i) :
    ∃ old, items[i]? = some old ∧ old.id = id ∧
      update id nm items =
        (some { old with name := nm }, items.set i { old with name := nm }) := by
  rcases findIndexOpt_getElem _ _ _ h with ⟨old, hget, hp⟩
  refine ⟨old, hget, by simpa using hp, ?_⟩
  simp [update, h, hget]

theorem remove_isSome (id : String) (items : List Item)
    (h : ∃ it ∈ items, it.id = id) : ((remove id items).1).isSome = true := by
  induction items with
  | nil => simp at h
  | cons a l ih =>
    rw [remove_cons]
    by_cases ha : a.id == id
    · simp [ha]
    · rcases h with ⟨it, hmem, hid⟩
      rcases List.mem_cons.mp hmem with rfl | hl
      · exact absurd (by simpa using hid) (by simpa using ha)
      · simpa [ha] using ih ⟨it, hl, hid⟩

theorem remove_found (id : String) (items : List Item)
    (hnd : (items.map Item.id).Nodup) (r : Item)
    (h : (remove id items).1 = some r) :
    r.id = id ∧ r ∈ items ∧
      ((remove id items).2).length + 1 = items.length ∧
      ((remove id items).2).Sublist items ∧
      findId id ((remove id items).2) = none := by
  induction items with
  | nil => simp [remove, findIndexOpt] at h
  | cons a l ih =>
    rw [remove_cons] at h ⊢
    by_cases ha : a.id == id
    · simp only [if_pos ha] at h ⊢
      have hra : a = r := by simpa using h
      have haid : a.id = id := by simpa using ha
      rw [List.map_cons, List.nodup_cons] at hnd
      refine ⟨by rw [← hra]; exact haid, by rw [← hra]; simp,
        by simp, List.sublist_cons_self _ _, ?_⟩
      simp only [findId]
      refine List.find?_eq_none.mpr (fun x hx => ?_)
      simp only [beq_iff_eq]
      intro hxe
      exact hnd.1 (by rw [haid, ← hxe]; exact List.mem_map_of_mem Item.id hx)
    · simp only [if_neg ha] at h ⊢
      rw [List.map_cons, List.nodup_cons] at hnd
      rcases ih hnd.2 h with ⟨h1, h2, h3, h4, h5⟩
      refine ⟨h1, List.mem_cons_of_mem a h2, by simpa using h3, h4.cons₂ a, ?_⟩
      simp only [findId] at h5 ⊢
      refine List.find?_eq_none.mpr (fun x hx => ?_)
      rcases List.mem_cons.mp hx with rfl | hxl
      · simpa using ha
      · exact List.find?_eq_none.mp h5 x hxl

theorem remove_some_length (id : String) (items : List Item)
    (h : ((remove id items).1).isSome = true) :
    ((remove id items).2).length + 1 = items.length := by
  induction items with
  | nil => simp [remove, findIndexOpt] at h
  | cons a l ih =>
    rw [remove_cons] at h ⊢
    by_cases ha : a.id == id
    · simp [ha]
    · simp only [if_neg ha] at h ⊢
      simpa using ih (by simpa using h)

theorem lookupField_eq_none (body : ReqBody) (f : String)
    (h : hasField body f = false) : lookupField body f = none := by
  have hfind : body.find? (fun kv => kv.1 == f) = none := by
    refine List.find?_eq_none.mpr (fun kv hkv => ?_)
    intro hbeq
    have hany : hasField body f = true :=
      List.any_eq_true.mpr ⟨kv, hkv, hbeq⟩
    rw [h] at hany
    exact Bool.noConfusion hany
  simp [lookupField, hfind]

theorem updateItem_store (id : String) (nm : Option String) (items : List Item) :
    (updateItem id nm items).2 = (update id nm items).2 := by
  cases h : update id nm items with
  | mk o rest => cases o <;> simp [updateItem, h]

/-! ## Claim theorems -/

/-- C2: for every name and every Store state, `add` (the `create`
operation) returns `{id, name}` whose id — the externally generated uuid,
assumed fresh exactly as the spec assumes uuidv4 never collides — differs
from every id already in the Store, appends the record as the new last
element, grows the Store by exactly one, and always succeeds (`add` is
total and returns `Item`, never an absent value). -/
theorem add_creates_fresh (uuid : String) (nm : String) (items : List Item)
    (hfresh : ∀ it ∈ items, it.id ≠ uuid) :
    (add uuid (some nm) items).1 = { id := uuid, name := some nm } ∧
    (∀ it ∈ items, it.id ≠ ((add uuid (some nm) items).1).id) ∧
    (add uuid (some nm) items).2 = items ++ [(add uuid (some nm) items).1] ∧
    ((add uuid (some nm) items).2).getLast? = some ((add uuid (some nm) items).1) ∧
    ((add uuid (some nm) items).2).length = items.length + 1 := by
  refine ⟨rfl, ?_, rfl, List.getLast?_concat _, by simp [add]⟩
  intro it hmem
  simpa [add] using hfresh it hmem

/-- Witness for C2 at a concrete input. -/
theorem add_creates_fresh_witness :
    (∀ it ∈ [(⟨"1", some "Item One"⟩ : Item)], it.id ≠ "u-42") ∧
    ((add "u-42" (some "Jerome") [(⟨"1", some "Item One"⟩ : Item)]).2).length = 1 + 1 := by
  have h : ∀ it ∈ [(⟨"1", some "Item One"⟩ : Item)], it.id ≠ "u-42" := by decide
  refine ⟨h, ?_⟩
  have hc := (add_creates_fresh "u-42" "Jerome" [(⟨"1", some "Item One"⟩ : Item)] h).2.2.2.2
  simpa using hc

/-- C3: `update(id, name)` on an id with no matching item returns absent
and leaves the Store unchanged; on a matching id (first match at index `i`)
it replaces only that item's name in place — same id, same position, every
other position untouched — and returns the updated record. -/
theorem update_absent_or_in_place (id : String) (nm : Option String)
    (items : List Item) :
    ((∀ it ∈ items, it.id ≠ id) → update id nm items = (none, items)) ∧
    (∀ i, findIndexOpt (fun it => it.id == id) items = some i →
      ∃ old, items[i]? = some old ∧ old.id = id ∧
        (update id nm items).1 = some { old with name := nm } ∧
        ((update id nm items).2)[i]? = some { old with name := nm } ∧
        ((update id nm items).2).length = items.length ∧
        (∀ j, j ≠ i → ((update id nm items).2)[j]? = items[j]?)) := by
  refine ⟨update_not_found id nm items, ?_⟩
  intro i hi
  rcases update_found id nm items i hi with ⟨old, hget, hid, heq⟩
  have hil : i < items.length := by
    by_contra hle
    rw [List.getElem?_eq_none (Nat.le_of_not_lt hle)] at hget
    exact Option.noConfusion hget
  refine ⟨old, hget, hid, by rw [heq], ?_, by rw [heq]; simp, ?_⟩
  · rw [heq]
    simpa using List.getElem?_set_self (l := items) (a := { old with name := nm }) hil
  · intro j hj
    rw [heq]
    exact List.getElem?_set_ne (Ne.symm hj)

/-- Witness for C3 at a concrete two-item Store. -/
theorem update_absent_or_in_place_witness :
    findIndexOpt (fun it => it.id == "2")
        [(⟨"1", some "Item One"⟩ : Item), ⟨"2", some "Item Two"⟩] = some 1 ∧
    ((update "2" (some "Updated Item Two")
        [(⟨"1", some "Item One"⟩ : Item), ⟨"2", some "Item Two"⟩]).2).length = 2 := by
  refine ⟨by decide, ?_⟩
  rcases (update_absent_or_in_place "2" (some "Updated Item Two")
      [(⟨"1", some "Item One"⟩ : Item), ⟨"2", some "Item Two"⟩]).2 1 (by decide) with
    ⟨old, _, _, _, _, hlen, _⟩
  simpa using hlen

/-- C4: `remove(id)` on an id with no matching item returns absent and
leaves the Store unchanged; on a matching id — under the Store invariant
that ids are unique — it returns the removed record (an element of the
Store bearing that id), shrinks the Store by exactly one, keeps the
remaining items in relative order (sublist), and a subsequent `findId id`
returns absent. -/
theorem remove_absent_or_deletes (id : String) (items : List Item) :
    ((∀ it ∈ items, it.id ≠ id) → remove id items = (none, items)) ∧
    ((items.map Item.id).Nodup →
      ∀ r, (remove id items).1 = some r →
        r.id = id ∧ r ∈ items ∧
        ((remove id items).2).length + 1 = items.length ∧
        ((remove id items).2).Sublist items ∧
        findId id ((remove id items).2) = none) :=
  ⟨remove_not_found id items, fun hnd r h => remove_found id items hnd r h⟩

/-- Witness for C4 at a concrete two-item Store. -/
theorem remove_absent_or_deletes_witness :
    (([(⟨"1", some "Item One"⟩ : Item), ⟨"2", some "Item Two"⟩].map Item.id).Nodup ∧
      (remove "1" [(⟨"1", some "Item One"⟩ : Item), ⟨"2", some "Item Two"⟩]).1 =
        some ⟨"1", some "Item One"⟩) ∧
    findId "1" ((remove "1"
      [(⟨"1", some "Item One"⟩ : Item), ⟨"2", some "Item Two"⟩]).2) = none := by
  refine ⟨⟨by decide, by decide⟩, ?_⟩
  exact ((remove_absent_or_deletes "1"
      [(⟨"1", some "Item One"⟩ : Item), ⟨"2", some "Item Two"⟩]).2
    (by decide) ⟨"1", some "Item One"⟩ (by decide)).2.2.2.2

/-- C8: removing the same id twice is idempotent — on a Store with unique
ids, once `remove id` has succeeded, running `remove id` again on the
resulting Store returns absent and leaves that Store untouched. -/
theorem remove_twice_idempotent (id : String) (items : List Item)
    (hnd : (items.map Item.id).Nodup)
    (h : ((remove id items).1).isSome = true) :
    remove id ((remove id items).2) = (none, (remove id items).2) := by
  rcases Option.isSome_iff_exists.mp h with ⟨r, hr⟩
  have h5 := (remove_found id items hnd r hr).2.2.2.2
  refine remove_not_found id _ (fun it hmem => ?_)
  have hne : ∀ x ∈ (remove id items).2, ¬ x.id = id := by
    simpa [findId] using h5
  exact hne it hmem

/-- Witness for C8 at a concrete one-item Store. -/
theorem remove_twice_idempotent_witness :
    ((([(⟨"1", some "Item One"⟩ : Item)].map Item.id).Nodup ∧
      ((remove "1" [(⟨"1", some "Item One"⟩ : Item)]).1).isSome = true) ∧
      remove "1" ((remove "1" [(⟨"1", some "Item One"⟩ : Item)]).2) =
        (none, (remove "1" [(⟨"1", some "Item One"⟩ : Item)]).2)) :=
  ⟨⟨by decide, by decide⟩,
    remove_twice_idempotent "1" [(⟨"1", some "Item One"⟩ : Item)]
      (by decide) (by decide)⟩

/-- C9: round trip — when `add` (create) returns `{id, name}` with the
freshly minted uuid (assumed non-colliding, as the spec assumes of
uuidv4), `findId` on that id against the new Store returns exactly that
record. -/
theorem create_then_findById (uuid : String) (nm : Option String)
    (items : List Item) (hfresh : ∀ it ∈ items, it.id ≠ uuid) :
    findId ((add uuid nm items).1).id ((add uuid nm items).2) =
      some ((add uuid nm items).1) := by
  have h1 : items.find? (fun item => item.id == uuid) = none :=
    List.find?_eq_none.mpr (fun x hx => by simpa using hfresh x hx)
  simp [add, findId, List.find?_append, h1]

/-- Witness for C9 on the empty Store. -/
theorem create_then_findById_witness :
    (∀ it ∈ ([] : List Item), it.id ≠ "u-7") ∧
    findId ((add "u-7" (some "Jerome") []).1).id ((add "u-7" (some "Jerome") []).2) =
      some ((add "u-7" (some "Jerome") []).1) :=
  ⟨by decide, create_then_findById "u-7" (some "Jerome") [] (by decide)⟩

/-- C5: a `POST /items` whose body lacks the required `name` field is
rejected by the `addItemSchema` validation gate: the outcome is `400`
carrying the missing-field violation, the Store is unchanged, and the
Service (`add`) is never invoked (third component `false`). -/
theorem post_missing_name_rejected (uuid : String) (body : ReqBody)
    (items : List Item) (h : hasField body "name" = false) :
    handlePOSTitems uuid body items =
      ({ status := 400, body := RespBody.invalid [Violation.missingRequired "name"] },
        items, false) := by
  simp [handlePOSTitems, dispatch, addItemSchema, validate, h]

/-- Witness for C5: the empty body `{}` against a one-item Store. -/
theorem post_missing_name_rejected_witness :
    hasField [] "name" = false ∧
    handlePOSTitems "u-1" [] [(⟨"1", some "Item One"⟩ : Item)] =
      ({ status := 400, body := RespBody.invalid [Violation.missingRequired "name"] },
        [(⟨"1", some "Item One"⟩ : Item)], false) :=
  ⟨rfl, post_missing_name_rejected "u-1" [] [(⟨"1", some "Item One"⟩ : Item)] rfl⟩

/-- C6: `DELETE /items/{id}` on a present id answers `200` with body
exactly `{message: "Item {id} has been removed"}` and the Store shrinks by
one; on an absent id it answers `404` with `{message: "Item {id} not
found"}` and the Store is unchanged. -/
theorem delete_route_spec (id : String) (items : List Item) :
    ((∃ it ∈ items, it.id = id) →
      (handleDELETEitem id items).1 =
        { status := 200,
          body := RespBody.msg ("Item " ++ id ++ " has been removed") } ∧
      ((handleDELETEitem id items).2.1).length + 1 = items.length) ∧
    ((∀ it ∈ items, it.id ≠ id) →
      handleDELETEitem id items =
        ({ status := 404, body := RespBody.msg ("Item " ++ id ++ " not found") },
          items, true)) := by
  constructor
  · intro hex
    have hs := remove_isSome id items hex
    have hlen := remove_some_length id items hs
    rcases hrm : remove id items with ⟨o, rest⟩
    rw [hrm] at hs hlen
    rcases Option.isSome_iff_exists.mp hs with ⟨r, hr⟩
    simp only at hr
    subst hr
    constructor
    · simp [handleDELETEitem, dispatch, deleteItemSchema, deleteItem, hrm]
    · simpa [handleDELETEitem, dispatch, deleteItemSchema, deleteItem, hrm] using hlen
  · intro habs
    have hrm := remove_not_found id items habs
    simp [handleDELETEitem, dispatch, deleteItemSchema, deleteItem, hrm]

/-- Witness for C6: both branches at concrete inputs. -/
theorem delete_route_spec_witness :
    (∃ it ∈ [(⟨"2", some "Item Two"⟩ : Item)], it.id = "2") ∧
    (handleDELETEitem "2" [(⟨"2", some "Item Two"⟩ : Item)]).1 =
      { status := 200, body := RespBody.msg ("Item " ++ "2" ++ " has been removed") } ∧
    handleDELETEitem "9" [(⟨"2", some "Item Two"⟩ : Item)] =
      ({ status := 404, body := RespBody.msg ("Item " ++ "9" ++ " not found") },
        [(⟨"2", some "Item Two"⟩ : Item)], true) := by
  refine ⟨⟨⟨"2", some "Item Two"⟩, by decide, rfl⟩, ?_, ?_⟩
  · exact ((delete_route_spec "2" [(⟨"2", some "Item Two"⟩ : Item)]).1
      ⟨⟨"2", some "Item Two"⟩, by decide, rfl⟩).1
  · exact (delete_route_spec "9" [(⟨"2", some "Item Two"⟩ : Item)]).2 (by decide)

/-- C7: `findId` on an id with no match returns the absent value `none`
(it is total — never a thrown fault), and `GET /items/{id}` then answers
`404` with body exactly `{message: "Item {id} not found"}`; when a match
exists, the route answers `200` with that item. -/
theorem get_route_absent_spec (id : String) (items : List Item) :
    ((∀ it ∈ items, it.id ≠ id) →
      findId id items = none ∧
      handleGETitem id items =
        ({ status := 404, body := RespBody.msg ("Item " ++ id ++ " not found") },
          items, true)) ∧
    (∀ it, findId id items = some it →
      handleGETitem id items =
        ({ status := 200, body := RespBody.itemBody it }, items, true)) := by
  constructor
  · intro h
    have hn : findId id items = none :=
      List.find?_eq_none.mpr (fun x hx => by simpa using h x hx)
    exact ⟨hn, by simp [handleGETitem, dispatch, getItemSchema, getItem, hn]⟩
  · intro it hit
    simp [handleGETitem, dispatch, getItemSchema, getItem, hit]

/-- Witness for C7: the spec's concrete scenario 1, Store
`[{id:"1", name:"Item One"}]`, ids `"1"` (found) and `"9"` (absent). -/
theorem get_route_absent_spec_witness :
    (∀ it ∈ [(⟨"1", some "Item One"⟩ : Item)], it.id ≠ "9") ∧
    handleGETitem "9" [(⟨"1", some "Item One"⟩ : Item)] =
      ({ status := 404, body := RespBody.msg ("Item " ++ "9" ++ " not found") },
        [(⟨"1", some "Item One"⟩ : Item)], true) ∧
    handleGETitem "1" [(⟨"1", some "Item One"⟩ : Item)] =
      ({ status := 200, body := RespBody.itemBody ⟨"1", some "Item One"⟩ },
        [(⟨"1", some "Item One"⟩ : Item)], true) := by
  refine ⟨by decide, ?_, ?_⟩
  · exact ((get_route_absent_spec "9" [(⟨"1", some "Item One"⟩ : Item)]).1 (by decide)).2
  · exact (get_route_absent_spec "1" [(⟨"1", some "Item One"⟩ : Item)]).2
      ⟨"1", some "Item One"⟩ rfl

/-- C1 counterexample: the claim says a `PUT /items/1` whose body lacks
`name` yields `400` and never reaches the Service; on the code,
`updateItemSchema` declares no body schema, so with Store
`[{id:"1", name:"Item One"}]` and body `{}` the Service IS invoked and the
outcome is `200`, not `400`. -/
theorem put_missing_name_not_gated_cex :
    (handlePUTitem "1" [] [(⟨"1", some "Item One"⟩ : Item)]).2.2 = true ∧
    (handlePUTitem "1" [] [(⟨"1", some "Item One"⟩ : Item)]).1.status = 200 :=
  ⟨rfl, rfl⟩

/-- C1 amended: because `updateItemSchema` declares no body schema, a
`PUT /items/{id}` request whose body lacks `name` is NOT rejected with
`400`: the dispatch always invokes the controller, which runs the Service
`update` with the absent (`none`) name. -/
theorem put_missing_name_reaches_service (id : String) (body : ReqBody)
    (items : List Item) (h : hasField body "name" = false) :
    (handlePUTitem id body items).2.2 = true ∧
    handlePUTitem id body items =
      ((updateItem id none items).1, (updateItem id none items).2, true) := by
  have hl : lookupField body "name" = none := lookupField_eq_none body "name" h
  constructor
  · simp [handlePUTitem, dispatch, updateItemSchema]
  · simp [handlePUTitem, dispatch, updateItemSchema, hl]

/-- Witness for the amended C1 at the counterexample's input. -/
theorem put_missing_name_reaches_service_witness :
    hasField [] "name" = false ∧
    (handlePUTitem "1" ([] : ReqBody) [(⟨"1", some "Item One"⟩ : Item)]).2.2 = true :=
  ⟨rfl, (put_missing_name_reaches_service "1" []
    [(⟨"1", some "Item One"⟩ : Item)] rfl).1⟩

/-- C10: the Service performs no validation of `name`: whenever the id
matches (first match at index `i`), `update id nv` overwrites the found
item's name with ANY value `nv` — including `some ""` and the absent value
`none` — and returns the record; consequently a `PUT` with an empty body
(not gated, since `updateItemSchema` has no body schema) stores an item
whose name is absent, violating the data-model invariant that `name` is a
non-empty string. -/
theorem update_accepts_any_name (id : String) (items : List Item) (i : Nat)
    (nv : Option String)
    (h : findIndexOpt (fun it => it.id == id) items = some i) :
    ∃ old, items[i]? = some old ∧
      (update id nv items).1 = some { old with name := nv } ∧
      ((update id nv items).2)[i]? = some { old with name := nv } ∧
      (handlePUTitem id [] items).2.2 = true ∧
      ((handlePUTitem id [] items).2.1)[i]? = some { old with name := none } := by
  rcases update_found id nv items i h with ⟨old, hget, hid, heq⟩
  have hil : i < items.length := by
    by_contra hle
    rw [List.getElem?_eq_none (Nat.le_of_not_lt hle)] at hget
    exact Option.noConfusion hget
  rcases update_found id none items i h with ⟨old2, hget2, hid2, heq2⟩
  have hold : old2 = old := by
    rw [hget] at hget2
    exact (Option.some.inj hget2).symm
  subst hold
  have hstore : (handlePUTitem id [] items).2.1 = (update id none items).2 := by
    have hput : handlePUTitem id [] items =
        ((updateItem id none items).1, (updateItem id none items).2, true) := by
      simp [handlePUTitem, dispatch, updateItemSchema, lookupField]
    rw [hput]
    exact updateItem_store id none items
  refine ⟨old2, hget, by rw [heq], ?_, ?_, ?_⟩
  · rw [heq]
    simpa using List.getElem?_set_self (l := items) (a := { old2 with name := nv }) hil
  · simp [handlePUTitem, dispatch, updateItemSchema]
  · rw [hstore, heq2]
    simpa using List.getElem?_set_self (l := items) (a := { old2 with name := none }) hil

/-- Witness for C10: overwriting with the empty string on a one-item
Store, and the empty-body PUT leaving an absent name in the Store. -/
theorem update_accepts_any_name_witness :
    findIndexOpt (fun it => it.id == "3") [(⟨"3", some "Item Three"⟩ : Item)] = some 0 ∧
    (update "3" (some "") [(⟨"3", some "Item Three"⟩ : Item)]).1 = some ⟨"3", some ""⟩ ∧
    ((handlePUTitem "3" [] [(⟨"3", some "Item Three"⟩ : Item)]).2.1)[0]? =
      some ⟨"3", none⟩ := by
  refine ⟨by decide, ?_, ?_⟩
  all_goals
    rcases update_accepts_any_name "3" [(⟨"3", some "Item Three"⟩ : Item)] 0
        (some "") (by decide) with ⟨old, hget, h1, h2, h3, h4⟩
  · have hold : old = ⟨"3", some "Item Three"⟩ := by
      have : some old = some (⟨"3", some "Item Three"⟩ : Item) := by
        rw [← hget]; rfl
      exact Option.some.inj this
    rw [hold] at h1
    exact h1
  · have hold : old = ⟨"3", some "Item Three"⟩ := by
      have : some old = some (⟨"3", some "Item Three"⟩ : Item) := by
        rw [← hget]; rfl
      exact Option.some.inj this
    rw [hold] at h4
    exact h4

end FastifyStarter
